import Mathlib

/-!
# Verification of the incremental text Ion reader (`src/text/reader.rs`)

This development shallowly embeds the streaming text reader state machine of
`src/text/reader.rs` in Lean. Pure Rust functions become Lean functions; the
methods that mutate `&mut self` become explicit state transformers of type
`TextReader → Result × TextReader`. Machine strings are embedded as `List Char`
(all inputs considered are ASCII, so byte counts and char counts agree).

The token-level grammar (`src/text/parsers/*`), the growable text buffer
(`src/text/text_buffer.rs`), the value model (`src/text/text_value.rs`) and the
parent-frame type (`src/text/parent_level.rs`) are external collaborators of the
reader that are not part of the reviewed source; they are modelled from the
specification where definitions below say so.

Error messages carried by `decoding_error` / `illegal_operation` in the source
are human-readable strings interpolating line numbers and buffer text; the
messages themselves are elided here and only the error kind is kept, which is
all the reader's control flow (and the claims) depend on.

The mutually recursive quadruple `next` / `load_next_value` / `step_out` and
the internal drain loop of `step_out` need not terminate for an arbitrary
token parser (a parser that matches without consuming makes the Rust loop in
`step_out` spin forever), so they are embedded as one fuel-indexed interpreter
`runOp`; `none` models both fuel exhaustion and the source's `unreachable!`
panic (no normal return). Every claim is stated either for all sufficiently
large fuel values or at a concrete fuel that provably suffices.
-/

namespace IonText

/-- Ion value types, mirroring the `IonType` enum used by the reader. -/
inductive IonType : Type where
  | Null
  | Boolean
  | Integer
  | Float
  | Decimal
  | Timestamp
  | Symbol
  | String
  | Clob
  | Blob
  | List
  | SExpression
  | Struct
deriving DecidableEq, Repr

/-- Container predicate, mirroring `IonType::is_container`. -/
def IonType.is_container : IonType → Bool
  | .List => true
  | .SExpression => true
  | .Struct => true
  | _ => false

/-- Modelled from the spec: a symbolic token (`OwnedSymbolToken` from
`src/value/owned.rs`, not part of the reviewed source). Only text tokens are
needed by the reader; symbol-table ids are out of scope (§1 non-goals). -/
structure OwnedSymbolToken : Type where
  text : List Char
deriving DecidableEq, Repr

/-- Modelled from the spec: the decimal scalar payload (`types/decimal.rs`, not
part of the reviewed source). The reader never inspects it, it is only cloned
through the typed accessor, so a coefficient/exponent pair suffices. -/
structure Decimal : Type where
  coefficient : Int
  exponent : Int
deriving DecidableEq, Repr

/-- Modelled from the spec: the timestamp scalar payload (`types/timestamp.rs`,
not part of the reviewed source). The reader never inspects it. -/
structure Timestamp : Type where
  year : Nat
  month : Nat
  day : Nat
deriving DecidableEq, Repr

/-- Modelled from the spec: the token-level value union produced by the token
parser (`src/text/text_value.rs`, not part of the reviewed source); §3 of the
spec: null-of-type, boolean, integer, float, decimal, timestamp, symbol,
string, blob, clob, and the three container heads. The `Float` payload is the
raw `f64` bit pattern: the reader never performs float arithmetic, it only
passes the payload through, so no IEEE semantics are modelled. The `Integer`
payload is an unbounded `Int` standing for the source's `i64`; none of the
inputs considered approach the 64-bit range. -/
inductive TextValue : Type where
  | Null (ion_type : IonType)
  | Boolean (b : Bool)
  | Integer (i : Int)
  | Float (bits : Nat)
  | Decimal (d : IonText.Decimal)
  | Timestamp (t : IonText.Timestamp)
  | Symbol (s : OwnedSymbolToken)
  | String (s : List Char)
  | Blob (bytes : List Nat)
  | Clob (bytes : List Nat)
  | ListStart
  | SExpressionStart
  | StructStart
deriving DecidableEq, Repr

/-- Type of a token value, mirroring `TextValue::ion_type`: a typed null
reports the type it is a null of. -/
def TextValue.ion_type : TextValue → IonType
  | .Null t => t
  | .Boolean _ => .Boolean
  | .Integer _ => .Integer
  | .Float _ => .Float
  | .Decimal _ => .Decimal
  | .Timestamp _ => .Timestamp
  | .Symbol _ => .Symbol
  | .String _ => .String
  | .Blob _ => .Blob
  | .Clob _ => .Clob
  | .ListStart => .List
  | .SExpressionStart => .SExpression
  | .StructStart => .Struct

/-- A token value together with its ordered annotations
(`AnnotatedTextValue`). The annotation list is called `anns` here (the source
calls the accessor `annotations()`). -/
structure AnnotatedTextValue : Type where
  anns : List OwnedSymbolToken
  value : TextValue
deriving DecidableEq, Repr

/-- Mirrors `AnnotatedTextValue::ion_type`, which delegates to the value. -/
def AnnotatedTextValue.ion_type (v : AnnotatedTextValue) : IonType :=
  v.value.ion_type

/-- Mirrors the reader's null test `matches!(value.value(), TextValue::Null(_))`. -/
def AnnotatedTextValue.is_null (v : AnnotatedTextValue) : Bool :=
  match v.value with
  | .Null _ => true
  | _ => false

/-- Modelled from the spec: a parent container frame
(`src/text/parent_level.rs`, not part of the reviewed source); §3 of the spec:
container kind plus an `exhausted` flag that records whether the closing
delimiter has been observed. The source stores the kind as an `IonType`. -/
structure ParentContainer : Type where
  ion_type : IonType
  is_exhausted : Bool
deriving DecidableEq, Repr

/-- Mirrors `ParentContainer::new`: a freshly pushed frame is not exhausted. -/
def ParentContainer.new (t : IonType) : ParentContainer :=
  { ion_type := t, is_exhausted := false }

/-- Modelled from the spec: the item reported by `next()`
(`StreamItem::Value(ion_type, is_null)` from `system_reader.rs`, not part of
the reviewed source). -/
inductive StreamItem : Type where
  | Value (ion_type : IonType) (is_null : Bool)
deriving DecidableEq, Repr

/-- The two error kinds of `IonResult` relevant to the reader: decoding errors
(malformed or truncated input) and illegal operations (structurally invalid
API calls). The message strings of the source are elided. -/
inductive IonError : Type where
  | decodingError
  | illegalOperation
deriving DecidableEq, Repr

/-- Modelled from the spec: the outcome of a stateless token parser applied to
a text slice (nom's `IResult`): a match with the leftover suffix, an
"incomplete input" signal, or a syntax error (§6). -/
inductive IResult (α : Type) : Type where
  | ok (remaining : List Char) (value : α)
  | incomplete
  | error
deriving DecidableEq, Repr

/-- A stateless token parser over a text slice. -/
abbrev TextParser (α : Type) : Type := List Char → IResult α

/-- Modelled from the spec: the five grammar entry points consumed by the
reader (§6): `top_level_value`, `list_value_or_end`,
`s_expression_value_or_end`, `struct_field_name_or_end`,
`struct_field_value` (`src/text/parsers/*`, not part of the reviewed source).
The reader is parametric in this structure; a concrete instantiation
`ionGrammar` is given below. -/
structure Grammar : Type where
  top_level_value : TextParser AnnotatedTextValue
  list_value_or_end : TextParser (Option AnnotatedTextValue)
  s_expression_value_or_end : TextParser (Option AnnotatedTextValue)
  struct_field_name_or_end : TextParser (Option OwnedSymbolToken)
  struct_field_value : TextParser AnnotatedTextValue

/-- Modelled from the spec: the growable line-oriented text buffer
(`src/text/text_buffer.rs`, not part of the reviewed source); §6: it owns the
unconsumed tail (`remaining`), can pull one more line of input (`pending` is
the list of not-yet-pulled lines of the underlying source, each nonempty and
carrying its terminating newline when one exists), discards consumed text from
the front, and counts loaded lines for diagnostics. -/
structure TextBuffer : Type where
  remaining : List Char
  pending : List (List Char)
  lines_loaded : Nat
deriving DecidableEq, Repr

/-- The reader state: the five fields of the Rust `TextReader` struct. The
source stores `parents` in a `Vec` accessed only through `push`, `last`,
`last_mut` and `pop` at the back; here the innermost frame is the HEAD of the
list, so push = cons, last = head, pop = tail, and depth = length. -/
structure TextReader : Type where
  buffer : TextBuffer
  current_field_name : Option OwnedSymbolToken
  current_value : Option AnnotatedTextValue
  bytes_read : Nat
  is_eof : Bool
  parents : List ParentContainer
deriving DecidableEq, Repr

/-- Mirrors `TextReader::new` over a data source already split into lines. -/
def readerOf (lines : List (List Char)) : TextReader :=
  { buffer := { remaining := [], pending := lines, lines_loaded := 0 }
    current_field_name := none
    current_value := none
    bytes_read := 0
    is_eof := false
    parents := [] }

/-- Mirrors the accessor `TextReader::bytes_read`. -/
def TextReader.bytes_read_acc (st : TextReader) : Nat := st.bytes_read

/-- Mirrors `TextReader::depth`: the length of the parent stack. -/
def depthS (st : TextReader) : Nat := st.parents.length

/-- Mirrors `TextReader::field_name`. -/
def field_nameS (st : TextReader) : Option OwnedSymbolToken := st.current_field_name

/-- Mirrors `TextBuffer::load_next_line`: append the next pending line to the
unconsumed tail and report how many bytes arrived; `0` signals true end of
input. -/
def TextBuffer.load_next_line (b : TextBuffer) : Nat × TextBuffer :=
  match b.pending with
  | [] => (0, b)
  | line :: rest =>
      (line.length,
        { remaining := b.remaining ++ line, pending := rest,
          lines_loaded := b.lines_loaded + 1 })

/-- The retry loop body of `TextReader::parse_next` (the `'parse: loop`):
attempt a match against the unconsumed tail; on `Incomplete` pull one more
line and retry, and if the pull yields zero bytes set the EOF flag and report
no value; on a match consume exactly (tail before) − (leftover after) bytes
and add them to `bytes_read`; on a parser error report a decoding error. The
`fuel` argument makes the loop a total function; `parse_next` below passes
`pending.length + 1`, which is exactly enough since every retry consumes one
pending line, so the zero-fuel branch is unreachable (its value is chosen to
coincide with the end-of-input outcome). -/
def parse_next_go {α : Type} (parser : TextParser α) :
    Nat → TextReader → Except IonError (Option α) × TextReader
  | 0, st => (.ok none, { st with is_eof := true })
  | fuel + 1, st =>
      match parser st.buffer.remaining with
      | .ok remaining_text value =>
          let bytes_consumed := st.buffer.remaining.length - remaining_text.length
          (.ok (some value),
            { st with
                buffer := { st.buffer with
                              remaining := st.buffer.remaining.drop bytes_consumed }
                bytes_read := st.bytes_read + bytes_consumed })
      | .incomplete =>
          match st.buffer.load_next_line with
          | (n, buffer') =>
              if n = 0 then
                (.ok none, { st with is_eof := true, buffer := buffer' })
              else
                parse_next_go parser fuel { st with buffer := buffer' }
      | .error => (.error .decodingError, st)

/-- Mirrors `TextReader::parse_next`: if the EOF flag is already set, report
no value without touching the buffer; otherwise run the retry loop. -/
def parse_next {α : Type} (parser : TextParser α) (st : TextReader) :
    Except IonError (Option α) × TextReader :=
  if st.is_eof then (.ok none, st)
  else parse_next_go parser (st.buffer.pending.length + 1) st

/-- The sentinel text `"\n0\n"` appended by the EOF disambiguator
(`SENTINEL_ION_TEXT`). -/
def SENTINEL_ION_TEXT : List Char := ['\n', '0', '\n']

/-- Mirrors `TextReader::parse_value_at_eof` (the EOF disambiguator): append
the sentinel to the unconsumed tail and re-parse once. If the parse yields
exactly the unannotated integer zero with precisely the trailing `"\n"` left
over, the real content held no further value; any other match is the real
final value; an incomplete or failed parse is a decoding error. Finally, if
the tail still ends with the sentinel (it always does, since this routine
never consumes), strip it so that repeated invocation does not accumulate
sentinels. Note that no bytes are consumed and `bytes_read` is not advanced on
any path. -/
def parse_value_at_eofF (g : Grammar) (st : TextReader) :
    Except IonError (Option AnnotatedTextValue) × TextReader :=
  let buf1 : TextBuffer :=
    { st.buffer with remaining := st.buffer.remaining ++ SENTINEL_ION_TEXT }
  let value : Except IonError (Option AnnotatedTextValue) :=
    match g.top_level_value buf1.remaining with
    | .ok rem v =>
        if rem = ['\n'] ∧ v.anns = [] ∧ v.value = TextValue.Integer 0 then
          .ok none
        else
          .ok (some v)
    | .incomplete => .error .decodingError
    | .error => .error .decodingError
  let buf2 : TextBuffer :=
    if SENTINEL_ION_TEXT.isSuffixOf buf1.remaining then
      { buf1 with
          remaining := buf1.remaining.take (buf1.remaining.length - SENTINEL_ION_TEXT.length) }
    else buf1
  (value, { st with buffer := buf2 })

/-- Mirrors `TextReader::next_top_level_value`: try `top_level_value`; on a
genuine end of input, double-check the buffer through the EOF disambiguator. -/
def next_top_level_valueF (g : Grammar) (st : TextReader) :
    Except IonError (Option AnnotatedTextValue) × TextReader :=
  match parse_next g.top_level_value st with
  | (.ok (some value), st') => (.ok (some value), st')
  | (.ok none, st') => parse_value_at_eofF g st'
  | (.error e, st') => (.error e, st')

/-- Mirrors `TextReader::parse_expected`: run the parser; an end of input here
is a decoding error, never a silent absence (the source also threads a
human-readable entity name into the message, elided here). -/
def parse_expected {α : Type} (parser : TextParser α) (st : TextReader) :
    Except IonError α × TextReader :=
  match parse_next parser st with
  | (.ok (some value), st') => (.ok value, st')
  | (.ok none, st') => (.error .decodingError, st')
  | (.error e, st') => (.error e, st')

/-- Mirrors `TextReader::next_list_value`. -/
def next_list_valueF (g : Grammar) (st : TextReader) :
    Except IonError (Option AnnotatedTextValue) × TextReader :=
  parse_expected g.list_value_or_end st

/-- Mirrors `TextReader::next_s_expression_value`. -/
def next_s_expression_valueF (g : Grammar) (st : TextReader) :
    Except IonError (Option AnnotatedTextValue) × TextReader :=
  parse_expected g.s_expression_value_or_end st

/-- Mirrors `TextReader::next_struct_field_name`. -/
def next_struct_field_nameF (g : Grammar) (st : TextReader) :
    Except IonError (Option OwnedSymbolToken) × TextReader :=
  parse_expected g.struct_field_name_or_end st

/-- Mirrors `TextReader::next_struct_field_value`: after a field name, only a
value is legal; absence (including EOF) is a decoding error. -/
def next_struct_field_valueF (g : Grammar) (st : TextReader) :
    Except IonError AnnotatedTextValue × TextReader :=
  parse_expected g.struct_field_value st

/-- Mirrors `self.parents.last_mut().unwrap().set_exhausted(true)`. The
callers only invoke this with a nonempty stack (the source would panic
otherwise); the empty case is dead code and returns the state unchanged. -/
def mark_exhausted (st : TextReader) : TextReader :=
  match st.parents with
  | [] => st
  | p :: ps => { st with parents := { p with is_exhausted := true } :: ps }

/-- The top-level (empty parent stack) branch of `TextReader::load_next_value`:
if the stream EOF flag is set, clear the current value and succeed without
touching the buffer; otherwise read the next top-level value, on EOF set the
flag and clear the current value, on a value install it. A decoding error
from `next_top_level_value` falls into the source's catch-all `_ => {}` match
arm: the error is dropped, the state keeps whatever mutations the failed
parse made, and the call still returns `Ok(())`. -/
def load_next_value_top (g : Grammar) (st : TextReader) :
    Except IonError Unit × TextReader :=
  if st.is_eof then (.ok (), { st with current_value := none })
  else
    match next_top_level_valueF g st with
    | (.ok none, st') => (.ok (), { st' with is_eof := true, current_value := none })
    | (.ok (some value), st') => (.ok (), { st' with current_value := some value })
    | (.error _, st') => (.ok (), st')

/-- The part of `TextReader::load_next_value` after the container-skip
prelude: dispatch on the parent stack. At the top level defer to
`load_next_value_top`. Inside a container: an exhausted frame yields no value
without re-parsing; otherwise the syntax dispatched on the parent's kind is
tried, the end delimiter marks the frame exhausted, a value becomes current,
and errors propagate (in a struct the field name read before the value is
recorded in `current_field_name` first). A parent frame holding a scalar type
is the source's `unreachable!` panic, modelled as no normal return (`none`). -/
def load_next_value_core (g : Grammar) (st : TextReader) :
    Option (Except IonError Unit × TextReader) :=
  match st.parents with
  | [] => some (load_next_value_top g st)
  | parent :: _ =>
      if parent.is_exhausted then
        some (.ok (), { st with current_value := none })
      else
        match parent.ion_type with
        | IonType.List =>
            some (match next_list_valueF g st with
              | (.ok none, st') =>
                  (.ok (), { mark_exhausted st' with current_value := none })
              | (.ok (some value), st') =>
                  (.ok (), { st' with current_value := some value })
              | (.error e, st') => (.error e, st'))
        | IonType.SExpression =>
            some (match next_s_expression_valueF g st with
              | (.ok none, st') =>
                  (.ok (), { mark_exhausted st' with current_value := none })
              | (.ok (some value), st') =>
                  (.ok (), { st' with current_value := some value })
              | (.error e, st') => (.error e, st'))
        | IonType.Struct =>
            some (match next_struct_field_nameF g st with
              | (.ok (some field_name), st1) =>
                  match next_struct_field_valueF g
                          { st1 with current_field_name := some field_name } with
                  | (.ok value, st2) => (.ok (), { st2 with current_value := some value })
                  | (.error e, st2) => (.error e, st2)
              | (.ok none, st1) =>
                  (.ok (), { mark_exhausted st1 with current_value := none })
              | (.error e, st1) => (.error e, st1))
        | _ => none

/-- Mirrors `TextReader::step_in`: valid exactly on an unconsumed container
head, pushing a fresh frame of the container's kind and clearing the current
value; an absent current value or a scalar is an illegal operation and leaves
the state untouched. -/
def step_inS (st : TextReader) : Except IonError Unit × TextReader :=
  match st.current_value with
  | some value =>
      if value.value.ion_type.is_container then
        (.ok (),
          { st with
              parents := ParentContainer.new value.value.ion_type :: st.parents
              current_value := none })
      else (.error .illegalOperation, st)
  | none => (.error .illegalOperation, st)

/-- The operations whose source methods are mutually recursive:
`load_next_value` and `next` call each other through the container-skip
prelude, `step_out` drains the current container by calling `next` in a loop
(`drain` is that loop). -/
inductive ReaderOp : Type where
  | load_next_value
  | next
  | step_out
  | drain

/-- Fuel-indexed interpreter for the mutually recursive quadruple. The result
payload is the `StreamItem` option of `next`; `load_next_value`, `step_out`
and `drain` return `()` in the source and uniformly report `.ok none` here.
`none` models fuel exhaustion and the source's `unreachable!` panic.

* `.load_next_value` mirrors `TextReader::load_next_value`: if the current
  value is a container head the caller did not step into, skip it by stepping
  in and out, then proceed with `load_next_value_core`.
* `.next` mirrors `SystemReader::next for TextReader`: load the next value,
  then report its type and null-ness, or no more values.
* `.step_out` mirrors `TextReader::step_out`: illegal at the top level; if the
  innermost frame is not exhausted, first visit every remaining value at this
  depth (the drain loop), then pop the frame and clear the current value.
* `.drain` mirrors the `while let Some(_) = self.next()? {}` loop body. -/
def runOp (g : Grammar) :
    Nat → ReaderOp → TextReader →
    Option (Except IonError (Option StreamItem) × TextReader)
  | 0, _, _ => none
  | fuel + 1, op, st =>
      match op with
      | .load_next_value =>
          let need_to_skip_container :=
            (st.current_value.map (fun v => v.value.ion_type.is_container)).getD false
          if need_to_skip_container then
            match step_inS st with
            | (.ok _, st1) =>
                match runOp g fuel .step_out st1 with
                | none => none
                | some (.ok _, st2) =>
                    (load_next_value_core g st2).map
                      (fun r => (r.1.map (fun _ => none), r.2))
                | some (.error e, st2) => some (.error e, st2)
            | (.error e, st1) => some (.error e, st1)
          else
            (load_next_value_core g st).map
              (fun r => (r.1.map (fun _ => none), r.2))
      | .next =>
          match runOp g fuel .load_next_value st with
          | none => none
          | some (.error e, st') => some (.error e, st')
          | some (.ok _, st') =>
              match st'.current_value with
              | some value =>
                  some (.ok (some (StreamItem.Value value.ion_type value.is_null)), st')
              | none => some (.ok none, st')
      | .step_out =>
          match st.parents with
          | [] => some (.error .illegalOperation, st)
          | parent :: rest =>
              if parent.is_exhausted then
                some (.ok none, { st with parents := rest, current_value := none })
              else
                match runOp g fuel .drain st with
                | none => none
                | some (.error e, st') => some (.error e, st')
                | some (.ok _, st') =>
                    some (.ok none,
                      { st' with parents := st'.parents.tail, current_value := none })
      | .drain =>
          match runOp g fuel .next st with
          | none => none
          | some (.error e, st') => some (.error e, st')
          | some (.ok none, st') => some (.ok none, st')
          | some (.ok (some _), st') => runOp g fuel .drain st'

/-- Mirrors `SystemReader::next for TextReader`, fuel-indexed. -/
def nextF (g : Grammar) (fuel : Nat) (st : TextReader) :
    Option (Except IonError (Option StreamItem) × TextReader) :=
  runOp g fuel .next st

/-- Mirrors `TextReader::load_next_value`, fuel-indexed. The `Unit` the source
returns is recovered by discarding the (always-`none`) payload. -/
def load_next_valueF (g : Grammar) (fuel : Nat) (st : TextReader) :
    Option (Except IonError Unit × TextReader) :=
  (runOp g fuel .load_next_value st).map (fun r => (r.1.map (fun _ => ()), r.2))

/-- Mirrors `TextReader::step_out`, fuel-indexed. -/
def step_outF (g : Grammar) (fuel : Nat) (st : TextReader) :
    Option (Except IonError Unit × TextReader) :=
  (runOp g fuel .step_out st).map (fun r => (r.1.map (fun _ => ()), r.2))

/-- Mirrors `SystemReader::read_null for TextReader`: the type the current
null is a null of, or absence on any other current value. -/
def read_nullS (st : TextReader) : Except IonError (Option IonType) × TextReader :=
  match st.current_value.map (fun current => current.value) with
  | some (TextValue.Null ion_type) => (.ok (some ion_type), st)
  | _ => (.ok none, st)

/-- Mirrors `SystemReader::read_bool for TextReader`. -/
def read_boolS (st : TextReader) : Except IonError (Option Bool) × TextReader :=
  match st.current_value.map (fun current => current.value) with
  | some (TextValue.Boolean value) => (.ok (some value), st)
  | _ => (.ok none, st)

/-- Mirrors `SystemReader::read_i64 for TextReader`. -/
def read_i64S (st : TextReader) : Except IonError (Option Int) × TextReader :=
  match st.current_value.map (fun current => current.value) with
  | some (TextValue.Integer value) => (.ok (some value), st)
  | _ => (.ok none, st)

/-- Mirrors `SystemReader::read_f32 for TextReader`. The source narrows the
`f64` payload with `as f32`; the numeric narrowing is opaque to this
development (no claim inspects the payload), so the payload is passed through
unchanged. -/
def read_f32S (st : TextReader) : Except IonError (Option Nat) × TextReader :=
  match st.current_value.map (fun current => current.value) with
  | some (TextValue.Float value) => (.ok (some value), st)
  | _ => (.ok none, st)

/-- Mirrors `SystemReader::read_f64 for TextReader`. -/
def read_f64S (st : TextReader) : Except IonError (Option Nat) × TextReader :=
  match st.current_value.map (fun current => current.value) with
  | some (TextValue.Float value) => (.ok (some value), st)
  | _ => (.ok none, st)

/-- Mirrors `SystemReader::read_decimal for TextReader`. -/
def read_decimalS (st : TextReader) :
    Except IonError (Option IonText.Decimal) × TextReader :=
  match st.current_value.map (fun current => current.value) with
  | some (TextValue.Decimal value) => (.ok (some value), st)
  | _ => (.ok none, st)

/-- Mirrors `SystemReader::read_string for TextReader`. -/
def read_stringS (st : TextReader) :
    Except IonError (Option (List Char)) × TextReader :=
  match st.current_value.map (fun current => current.value) with
  | some (TextValue.String value) => (.ok (some value), st)
  | _ => (.ok none, st)

/-- Mirrors `SystemReader::string_ref_map for TextReader`. -/
def string_ref_mapS {U : Type} (f : List Char → U) (st : TextReader) :
    Except IonError (Option U) × TextReader :=
  match st.current_value.map (fun current => current.value) with
  | some (TextValue.String value) => (.ok (some (f value)), st)
  | _ => (.ok none, st)

/-- Mirrors `SystemReader::read_blob_bytes for TextReader`. -/
def read_blob_bytesS (st : TextReader) :
    Except IonError (Option (List Nat)) × TextReader :=
  match st.current_value.map (fun current => current.value) with
  | some (TextValue.Blob value) => (.ok (some value), st)
  | _ => (.ok none, st)

/-- Mirrors `SystemReader::read_clob_bytes for TextReader`. -/
def read_clob_bytesS (st : TextReader) :
    Except IonError (Option (List Nat)) × TextReader :=
  match st.current_value.map (fun current => current.value) with
  | some (TextValue.Clob value) => (.ok (some value), st)
  | _ => (.ok none, st)

/-- Mirrors `SystemReader::read_timestamp for TextReader`. -/
def read_timestampS (st : TextReader) :
    Except IonError (Option IonText.Timestamp) × TextReader :=
  match st.current_value.map (fun current => current.value) with
  | some (TextValue.Timestamp value) => (.ok (some value), st)
  | _ => (.ok none, st)

/-! ## A concrete token grammar

Modelled from the spec: the token parsers of `src/text/parsers/*` are not part
of the reviewed source. The following minimal grammar — whitespace, decimal
integers, identifier symbols, `::` annotation chains, and the three container
heads with their delimiters and separators — realizes the interface of §6 with
streaming semantics (a token that touches the end of the slice and could
continue is `incomplete`), which is all the spec's worked examples need. -/

/-- Whitespace characters recognized by the modelled grammar. -/
def isWsChar (c : Char) : Bool := c = ' ' ∨ c = '\n' ∨ c = '\t'

/-- Decimal digit test. -/
def isDigitC (c : Char) : Bool := '0' ≤ c ∧ c ≤ '9'

/-- First character of an identifier. -/
def isIdentStart (c : Char) : Bool := c.isAlpha

/-- Subsequent character of an identifier. -/
def isIdentChar (c : Char) : Bool := c.isAlpha ∨ isDigitC c ∨ c = '_'

/-- Skip leading whitespace. -/
def skipWs (s : List Char) : List Char := s.dropWhile isWsChar

/-- Skip leading whitespace and field-separating commas (struct field
position). -/
def skipWsOrComma (s : List Char) : List Char :=
  s.dropWhile (fun c => isWsChar c ∨ c = ',')

/-- Numeric value of a digit run. -/
def digitsVal (l : List Char) : Nat :=
  l.foldl (fun a c => a * 10 + (c.toNat - '0'.toNat)) 0

/-- Core value parser of the modelled grammar: a container head, an integer,
or an identifier symbol, the latter two confirmed complete only once a
non-token character follows (streaming semantics); an identifier followed by
`::` is an annotation on the value that follows. The fuel bounds the
annotation-chain recursion; `parseValue` passes the slice length plus one,
which suffices since every annotation hop consumes at least three characters,
so the zero-fuel branch is unreachable. -/
def parseValueCoreF : Nat → List Char → IResult AnnotatedTextValue
  | 0, _ => .error
  | fuel + 1, s =>
      match s with
      | [] => .incomplete
      | c :: rest =>
          if c = '[' then .ok rest ⟨[], .ListStart⟩
          else if c = '(' then .ok rest ⟨[], .SExpressionStart⟩
          else if c = '{' then .ok rest ⟨[], .StructStart⟩
          else if isDigitC c then
            match rest.dropWhile isDigitC with
            | [] => .incomplete
            | d :: tl =>
                if isIdentChar d then .error
                else .ok (d :: tl)
                       ⟨[], .Integer (Int.ofNat (digitsVal (c :: rest.takeWhile isDigitC)))⟩
          else if isIdentStart c then
            match rest.dropWhile isIdentChar with
            | [] => .incomplete
            | [':'] => .incomplete
            | ':' :: ':' :: tl =>
                (match parseValueCoreF fuel (skipWs tl) with
                 | .ok rem v => .ok rem ⟨⟨c :: rest.takeWhile isIdentChar⟩ :: v.anns, v.value⟩
                 | .incomplete => .incomplete
                 | .error => .error)
            | ':' :: _ :: _ => .error
            | _ :: _ => .ok (rest.dropWhile isIdentChar) ⟨[], .Symbol ⟨c :: rest.takeWhile isIdentChar⟩⟩
          else .error

/-- Core value parser with sufficient fuel. -/
def parseValue (s : List Char) : IResult AnnotatedTextValue :=
  parseValueCoreF (s.length + 1) s

/-- Modelled `top_level_value`: leading whitespace, then a value. -/
def top_level_valueP (s : List Char) : IResult AnnotatedTextValue :=
  parseValue (skipWs s)

/-- Modelled `list_value_or_end`: the closing `]`, or a value followed by a
consumed `,` separator or a peeked (unconsumed) `]`. -/
def list_value_or_endP (s : List Char) : IResult (Option AnnotatedTextValue) :=
  match skipWs s with
  | [] => .incomplete
  | ']' :: rest => .ok rest none
  | rest =>
      match parseValue rest with
      | .ok rem v =>
          (match skipWs rem with
           | [] => .incomplete
           | ',' :: rest2 => .ok rest2 (some v)
           | ']' :: rest2 => .ok (']' :: rest2) (some v)
           | _ => .error)
      | .incomplete => .incomplete
      | .error => .error

/-- Modelled `s_expression_value_or_end`: the closing `)`, or a value (whose
own termination check already guarantees a delimiter follows). -/
def s_expression_value_or_endP (s : List Char) : IResult (Option AnnotatedTextValue) :=
  match skipWs s with
  | [] => .incomplete
  | ')' :: rest => .ok rest none
  | rest =>
      match parseValue rest with
      | .ok rem v => .ok rem (some v)
      | .incomplete => .incomplete
      | .error => .error

/-- Modelled `struct_field_name_or_end`: the closing `}`, or an identifier
field name whose terminating `:` is consumed. -/
def struct_field_name_or_endP (s : List Char) : IResult (Option OwnedSymbolToken) :=
  match skipWsOrComma s with
  | [] => .incomplete
  | '}' :: rest => .ok rest none
  | c :: rest =>
      if isIdentStart c then
        match rest.dropWhile isIdentChar with
        | [] => .incomplete
        | ':' :: rest2 => .ok rest2 (some ⟨c :: rest.takeWhile isIdentChar⟩)
        | _ => .error
      else .error

/-- Modelled `struct_field_value`: leading whitespace, then a mandatory value. -/
def struct_field_valueP (s : List Char) : IResult AnnotatedTextValue :=
  parseValue (skipWs s)

/-- The concrete modelled grammar assembled for the reader. -/
def ionGrammar : Grammar :=
  { top_level_value := top_level_valueP
    list_value_or_end := list_value_or_endP
    s_expression_value_or_end := s_expression_value_or_endP
    struct_field_name_or_end := struct_field_name_or_endP
    struct_field_value := struct_field_valueP }

/-! ## Concrete inputs and runs

The worked examples of the spec, written as character lists (`'\x7b'` and
`'\x7d'` are `{` and `}`). Each `c<n>_...` run is a chain of reader operations
over `ionGrammar` starting from a fresh reader on the given input; fuel 40 is
far more than any of these runs consumes. -/

/-- The input `755`, a file whose single value touches end of input. -/
def in755 : List Char := ['7', '5', '5']

/-- The input `foo::bar`, an annotated value touching end of input. -/
def inFooBar : List Char := ['f', 'o', 'o', ':', ':', 'b', 'a', 'r']

/-- The container-skip example `0 [1, 2, 3] (4 5) 6` of the spec. -/
def inSkip : List Char :=
  ['0', ' ', '[', '1', ',', ' ', '2', ',', ' ', '3', ']', ' ',
   '(', '4', ' ', '5', ')', ' ', '6', '\n']

/-- A list truncated by end of input: `[1, 2`. -/
def inListEof : List Char := ['[', '1', ',', ' ', '2']

/-- A struct truncated right after a field name: `{foo:`. -/
def inStructEof : List Char := ['\x7b', 'f', 'o', 'o', ':']

/-- A one-field struct followed by a value: `{a: b} 5`. -/
def inStruct5 : List Char := ['\x7b', 'a', ':', ' ', 'b', '\x7d', ' ', '5', '\n']

/-- C1 run: one `next()` on the input `755`. -/
def c1_run755 : Option (Except IonError (Option StreamItem) × TextReader) :=
  nextF ionGrammar 40 (readerOf [in755])

/-- C1 run: one `next()` on the input `foo::bar`. -/
def c1_runFooBar : Option (Except IonError (Option StreamItem) × TextReader) :=
  nextF ionGrammar 40 (readerOf [inFooBar])

/-- C2 run: first `next()` on the skip example. -/
def c2_r1 : Option (Except IonError (Option StreamItem) × TextReader) :=
  nextF ionGrammar 40 (readerOf [inSkip])

/-- C2 run: second `next()` (lands on the list head). -/
def c2_r2 : Option (Except IonError (Option StreamItem) × TextReader) :=
  c2_r1.bind fun p => nextF ionGrammar 40 p.2

/-- C2 run: third `next()` without stepping in (skips the list). -/
def c2_r3 : Option (Except IonError (Option StreamItem) × TextReader) :=
  c2_r2.bind fun p => nextF ionGrammar 40 p.2

/-- C2 run: fourth `next()` without stepping in (skips the s-expression). -/
def c2_r4 : Option (Except IonError (Option StreamItem) × TextReader) :=
  c2_r3.bind fun p => nextF ionGrammar 40 p.2

/-- C3 run: `next`, `step_in`, `next` (the `1`), `next` hits EOF inside `[1, 2`. -/
def c3_list_run : Option (Except IonError (Option StreamItem) × TextReader) :=
  (nextF ionGrammar 40 (readerOf [inListEof])).bind fun p =>
    (nextF ionGrammar 40 (step_inS p.2).2).bind fun q =>
      nextF ionGrammar 40 q.2

/-- C3 run: `next`, `step_in`, `next` hits EOF after the field name of `{foo:`. -/
def c3_struct_run : Option (Except IonError (Option StreamItem) × TextReader) :=
  (nextF ionGrammar 40 (readerOf [inStructEof])).bind fun p =>
    nextF ionGrammar 40 (step_inS p.2).2

/-- C3 run: one `next()` on an empty source (EOF at depth 0). -/
def c3_empty_run : Option (Except IonError (Option StreamItem) × TextReader) :=
  nextF ionGrammar 40 (readerOf [])

/-- C5 run: first `next()` on the input `755`. -/
def c5_r1 : Option (Except IonError (Option StreamItem) × TextReader) :=
  nextF ionGrammar 40 (readerOf [in755])

/-- C5 run: second `next()` on the input `755` (fully consumed stream). -/
def c5_r2 : Option (Except IonError (Option StreamItem) × TextReader) :=
  c5_r1.bind fun p => nextF ionGrammar 40 p.2

/-- C6 run: first `next()` on `{a: b} 5` (the struct head). -/
def c6_r1 : Option (Except IonError (Option StreamItem) × TextReader) :=
  nextF ionGrammar 40 (readerOf [inStruct5])

/-- C6 run: `step_in`, then `next()` reads the field `a` and its value `b`. -/
def c6_r2 : Option (Except IonError (Option StreamItem) × TextReader) :=
  c6_r1.bind fun p => nextF ionGrammar 40 (step_inS p.2).2

/-- C6 run: `next()` observes the end of the struct. -/
def c6_r3 : Option (Except IonError (Option StreamItem) × TextReader) :=
  c6_r2.bind fun p => nextF ionGrammar 40 p.2

/-- C6 run: `step_out`, then a top-level `next()` loads the integer `5`. -/
def c6_r4 : Option (Except IonError (Option StreamItem) × TextReader) :=
  c6_r3.bind fun p =>
    (step_outF ionGrammar 40 p.2).bind fun q => nextF ionGrammar 40 q.2

/-! ## Invariant lemmas

`loadedChars` is the conserved quantity behind the byte accounting: the bytes
already counted as read, plus the unconsumed tail, plus the not-yet-loaded
input. `ParseQuiet` records everything a buffering-loop call leaves alone. -/

/-- Bytes counted as read plus unconsumed buffered text plus unloaded input. -/
def loadedChars (st : TextReader) : Nat :=
  st.bytes_read + st.buffer.remaining.length + (st.buffer.pending.map List.length).sum

/-- What a single buffering-loop call (`parse_next`) leaves invariant: the
byte counter never decreases, `loadedChars` is conserved, and the parent
stack, current value and current field name are untouched. -/
structure ParseQuiet (st st' : TextReader) : Prop where
  bytes_le : st.bytes_read ≤ st'.bytes_read
  loaded_eq : loadedChars st' = loadedChars st
  parents_eq : st'.parents = st.parents
  value_eq : st'.current_value = st.current_value
  field_eq : st'.current_field_name = st.current_field_name

theorem ParseQuiet.refl (st : TextReader) : ParseQuiet st st :=
  ⟨Nat.le_refl _, rfl, rfl, rfl, rfl⟩

theorem parseQuiet_trans {a b c : TextReader}
    (h1 : ParseQuiet a b) (h2 : ParseQuiet b c) : ParseQuiet a c :=
  ⟨h1.bytes_le.trans h2.bytes_le, h2.loaded_eq.trans h1.loaded_eq,
    h2.parents_eq.trans h1.parents_eq, h2.value_eq.trans h1.value_eq,
    h2.field_eq.trans h1.field_eq⟩

theorem parse_next_go_quiet {α : Type} (parser : TextParser α) :
    ∀ (fuel : Nat) (st : TextReader), ParseQuiet st (parse_next_go parser fuel st).2 := by
  intro fuel
  induction fuel with
  | zero => intro st; exact ⟨Nat.le_refl _, rfl, rfl, rfl, rfl⟩
  | succ n ih =>
      intro st
      simp only [parse_next_go]
      cases hp : parser st.buffer.remaining with
      | ok rem v =>
          refine ⟨Nat.le_add_right _ _, ?_, rfl, rfl, rfl⟩
          simp only [loadedChars, List.length_drop]
          omega
      | incomplete =>
          simp only [TextBuffer.load_next_line]
          cases hpend : st.buffer.pending with
          | nil => exact ⟨Nat.le_refl _, rfl, rfl, rfl, rfl⟩
          | cons line rest =>
              by_cases hz : line.length = 0
              · simp only [hz, if_pos]
                refine ⟨Nat.le_refl _, ?_, rfl, rfl, rfl⟩
                simp [loadedChars, hpend, hz]
              · simp only [if_neg hz]
                refine parseQuiet_trans ?_ (ih _)
                refine ⟨Nat.le_refl _, ?_, rfl, rfl, rfl⟩
                simp [loadedChars, hpend]
                omega
      | error => exact ⟨Nat.le_refl _, rfl, rfl, rfl, rfl⟩

theorem parse_next_quiet {α : Type} (parser : TextParser α) (st : TextReader) :
    ParseQuiet st (parse_next parser st).2 := by
  unfold parse_next
  split
  · exact ParseQuiet.refl st
  · exact parse_next_go_quiet parser _ st

/-- The EOF disambiguator restores the reader state completely: the sentinel
append is always undone (the routine never consumes, so the tail always still
ends with the sentinel), and no other field is touched. -/
theorem parse_value_at_eofF_snd (g : Grammar) (st : TextReader) :
    (parse_value_at_eofF g st).2 = st := by
  unfold parse_value_at_eofF
  have hsuf : SENTINEL_ION_TEXT.isSuffixOf
      (st.buffer.remaining ++ SENTINEL_ION_TEXT) = true := by
    simp [List.isSuffixOf, SENTINEL_ION_TEXT]
  have htake : (st.buffer.remaining ++ SENTINEL_ION_TEXT).take
      ((st.buffer.remaining ++ SENTINEL_ION_TEXT).length - SENTINEL_ION_TEXT.length)
      = st.buffer.remaining := by
    simp [List.length_append]
  simp only [hsuf, if_pos, htake]

theorem parse_value_at_eofF_eq (g : Grammar) (st : TextReader)
    (rem : List Char) (v : AnnotatedTextValue)
    (h : g.top_level_value (st.buffer.remaining ++ SENTINEL_ION_TEXT) = .ok rem v)
    (h2 : ¬(rem = ['\n'] ∧ v.anns = [] ∧ v.value = TextValue.Integer 0)) :
    parse_value_at_eofF g st = (.ok (some v), st) := by
  have hfst : (parse_value_at_eofF g st).1 = .ok (some v) := by
    unfold parse_value_at_eofF
    simp only [h, if_neg h2]
  have hsnd := parse_value_at_eofF_snd g st
  rw [Prod.ext_iff]
  exact ⟨hfst, hsnd⟩

theorem next_top_level_valueF_quiet (g : Grammar) (st : TextReader) :
    ParseQuiet st (next_top_level_valueF g st).2 := by
  unfold next_top_level_valueF
  rcases hp : parse_next g.top_level_value st with ⟨r, st1⟩
  have hq : ParseQuiet st st1 := by
    have := parse_next_quiet g.top_level_value st
    rwa [hp] at this
  match r with
  | .ok (some value) => exact hq
  | .ok none => rw [parse_value_at_eofF_snd]; exact hq
  | .error e => exact hq

theorem parse_expected_quiet {α : Type} (parser : TextParser α) (st : TextReader) :
    ParseQuiet st (parse_expected parser st).2 := by
  unfold parse_expected
  rcases hp : parse_next parser st with ⟨r, st1⟩
  have hq : ParseQuiet st st1 := by
    have := parse_next_quiet parser st
    rwa [hp] at this
  match r with
  | .ok (some value) => exact hq
  | .ok none => exact hq
  | .error e => exact hq

/-- The byte-accounting part of the invariant, for the whole-reader
operations: the counter never decreases and `loadedChars` is conserved. -/
def Quiet (st st' : TextReader) : Prop :=
  st.bytes_read ≤ st'.bytes_read ∧ loadedChars st' = loadedChars st

theorem ParseQuiet.toQuiet {st st' : TextReader} (h : ParseQuiet st st') : Quiet st st' :=
  ⟨h.bytes_le, h.loaded_eq⟩

theorem Quiet.rfl (st : TextReader) : Quiet st st := ⟨Nat.le_refl _, Eq.refl _⟩

theorem quiet_trans {a b c : TextReader} (h1 : Quiet a b) (h2 : Quiet b c) : Quiet a c :=
  ⟨h1.1.trans h2.1, h2.2.trans h1.2⟩

theorem step_inS_quiet (st : TextReader) : Quiet st (step_inS st).2 := by
  unfold step_inS
  split
  · split
    · exact ⟨Nat.le_refl _, Eq.refl _⟩
    · exact ⟨Nat.le_refl _, Eq.refl _⟩
  · exact ⟨Nat.le_refl _, Eq.refl _⟩

theorem mark_exhausted_bytes (st : TextReader) :
    (mark_exhausted st).bytes_read = st.bytes_read := by
  unfold mark_exhausted; split <;> rfl

theorem mark_exhausted_loaded (st : TextReader) :
    loadedChars (mark_exhausted st) = loadedChars st := by
  unfold mark_exhausted; split <;> rfl

theorem load_next_value_top_quiet (g : Grammar) (st : TextReader) :
    Quiet st (load_next_value_top g st).2 := by
  unfold load_next_value_top
  split
  · exact ⟨Nat.le_refl _, Eq.refl _⟩
  · rcases hp : next_top_level_valueF g st with ⟨r1, st1⟩
    have hq : ParseQuiet st st1 := by
      have := next_top_level_valueF_quiet g st
      rwa [hp] at this
    match r1 with
    | .ok none => exact ⟨hq.bytes_le, hq.loaded_eq⟩
    | .ok (some v) => exact ⟨hq.bytes_le, hq.loaded_eq⟩
    | .error e => exact ⟨hq.bytes_le, hq.loaded_eq⟩

theorem snd_of_pair_eq {α β : Type} {a r : α} {b s : β} (h : (a, b) = (r, s)) : s = b := by
  injection h with h1 h2
  exact h2.symm

theorem load_next_value_core_quiet (g : Grammar) (st : TextReader)
    (r : Except IonError Unit) (st' : TextReader)
    (h : load_next_value_core g st = some (r, st')) : Quiet st st' := by
  unfold load_next_value_core at h
  split at h
  · -- top level
    have h2 : load_next_value_top g st = (r, st') := Option.some.inj h
    have hq := load_next_value_top_quiet g st
    rw [h2] at hq
    exact hq
  · rename_i parent rest
    split at h
    · -- exhausted frame
      have h2 := Option.some.inj h
      rw [snd_of_pair_eq h2]
      exact ⟨Nat.le_refl _, Eq.refl _⟩
    · -- dispatch on the parent kind
      split at h
      · -- list
        have h2 := Option.some.inj h
        rcases hv : next_list_valueF g st with ⟨r1, st1⟩
        have hq : ParseQuiet st st1 := by
          have := parse_expected_quiet g.list_value_or_end st
          rwa [show parse_expected g.list_value_or_end st = next_list_valueF g st from rfl,
            hv] at this
        rw [hv] at h2
        match r1, h2 with
        | .ok none, h2 =>
            rw [snd_of_pair_eq h2]
            exact ⟨hq.bytes_le.trans (Nat.le_of_eq (mark_exhausted_bytes st1).symm),
              (mark_exhausted_loaded st1).trans hq.loaded_eq⟩
        | .ok (some v), h2 =>
            rw [snd_of_pair_eq h2]
            exact ⟨hq.bytes_le, hq.loaded_eq⟩
        | .error e, h2 =>
            rw [snd_of_pair_eq h2]
            exact ⟨hq.bytes_le, hq.loaded_eq⟩
      · -- s-expression
        have h2 := Option.some.inj h
        rcases hv : next_s_expression_valueF g st with ⟨r1, st1⟩
        have hq : ParseQuiet st st1 := by
          have := parse_expected_quiet g.s_expression_value_or_end st
          rwa [show parse_expected g.s_expression_value_or_end st
              = next_s_expression_valueF g st from rfl, hv] at this
        rw [hv] at h2
        match r1, h2 with
        | .ok none, h2 =>
            rw [snd_of_pair_eq h2]
            exact ⟨hq.bytes_le.trans (Nat.le_of_eq (mark_exhausted_bytes st1).symm),
              (mark_exhausted_loaded st1).trans hq.loaded_eq⟩
        | .ok (some v), h2 =>
            rw [snd_of_pair_eq h2]
            exact ⟨hq.bytes_le, hq.loaded_eq⟩
        | .error e, h2 =>
            rw [snd_of_pair_eq h2]
            exact ⟨hq.bytes_le, hq.loaded_eq⟩
      · -- struct
        have h2 := Option.some.inj h
        rcases hv : next_struct_field_nameF g st with ⟨r1, st1⟩
        have hq : ParseQuiet st st1 := by
          have := parse_expected_quiet g.struct_field_name_or_end st
          rwa [show parse_expected g.struct_field_name_or_end st
              = next_struct_field_nameF g st from rfl, hv] at this
        rw [hv] at h2
        match r1, h2 with
        | .ok (some fname), h2 =>
            have h3 : (match next_struct_field_valueF g
                  { st1 with current_field_name := some fname } with
              | (.ok value, st2) => ((.ok () : Except IonError Unit),
                  { st2 with current_value := some value })
              | (.error e, st2) => (.error e, st2)) = (r, st') := h2
            rcases hv2 : next_struct_field_valueF g
                { st1 with current_field_name := some fname } with ⟨r2, st2⟩
            have hq2 : ParseQuiet { st1 with current_field_name := some fname } st2 := by
              have := parse_expected_quiet g.struct_field_value
                { st1 with current_field_name := some fname }
              rwa [show parse_expected g.struct_field_value
                  { st1 with current_field_name := some fname }
                  = next_struct_field_valueF g
                      { st1 with current_field_name := some fname } from rfl, hv2] at this
            rw [hv2] at h3
            have hb : st.bytes_read ≤ st2.bytes_read := hq.bytes_le.trans hq2.bytes_le
            have hl : loadedChars st2 = loadedChars st := hq2.loaded_eq.trans hq.loaded_eq
            match r2, h3 with
            | .ok value, h3 =>
                rw [snd_of_pair_eq h3]
                exact ⟨hb, hl⟩
            | .error e, h3 =>
                rw [snd_of_pair_eq h3]
                exact ⟨hb, hl⟩
        | .ok none, h2 =>
            rw [snd_of_pair_eq h2]
            exact ⟨hq.bytes_le.trans (Nat.le_of_eq (mark_exhausted_bytes st1).symm),
              (mark_exhausted_loaded st1).trans hq.loaded_eq⟩
        | .error e, h2 =>
            rw [snd_of_pair_eq h2]
            exact ⟨hq.bytes_le, hq.loaded_eq⟩
      · -- scalar parent kind: the source panics, no normal return
        exact absurd h (by simp)

theorem runOp_quiet (g : Grammar) :
    ∀ (fuel : Nat) (op : ReaderOp) (st : TextReader)
      (r : Except IonError (Option StreamItem)) (st' : TextReader),
      runOp g fuel op st = some (r, st') → Quiet st st' := by
  intro fuel
  induction fuel with
  | zero => intro op st r st' h; simp [runOp] at h
  | succ n ih =>
      intro op st r st' h
      cases op with
      | load_next_value =>
          simp only [runOp] at h
          split at h
          · -- container-skip path
            rcases hsi : step_inS st with ⟨ri, st1⟩
            rw [hsi] at h
            have hqi : Quiet st st1 := by
              have := step_inS_quiet st
              rwa [hsi] at this
            match ri, h with
            | .ok _, h =>
                have h3 : (match runOp g n ReaderOp.step_out st1 with
                  | none => none
                  | some (.ok _, st2) =>
                      (load_next_value_core g st2).map
                        (fun r => (r.1.map (fun _ => (none : Option StreamItem)), r.2))
                  | some (.error e, st2) => some (.error e, st2)) = some (r, st') := h
                cases hro : runOp g n .step_out st1 with
                | none => rw [hro] at h3; simp at h3
                | some p =>
                    rcases p with ⟨r2, st2⟩
                    rw [hro] at h3
                    have hq2 : Quiet st1 st2 := ih .step_out st1 r2 st2 hro
                    match r2, h3 with
                    | .ok _, h3 =>
                        have h4 : (load_next_value_core g st2).map
                            (fun r => (r.1.map (fun _ => (none : Option StreamItem)), r.2))
                            = some (r, st') := h3
                        rw [Option.map_eq_some'] at h4
                        obtain ⟨⟨r3, st3⟩, hc, hf⟩ := h4
                        rw [snd_of_pair_eq hf]
                        exact quiet_trans (quiet_trans hqi hq2) (load_next_value_core_quiet g st2 r3 st3 hc)
                    | .error e, h3 =>
                        have h4 : some ((.error e : Except IonError (Option StreamItem)), st2)
                            = some (r, st') := h3
                        have h2 := Option.some.inj h4
                        rw [snd_of_pair_eq h2]
                        exact quiet_trans hqi hq2
            | .error e, h =>
                have h3 : some ((.error e : Except IonError (Option StreamItem)), st1)
                    = some (r, st') := h
                have h2 := Option.some.inj h3
                rw [snd_of_pair_eq h2]
                exact hqi
          · -- no skip needed
            rw [Option.map_eq_some'] at h
            obtain ⟨⟨r3, st3⟩, hc, hf⟩ := h
            rw [snd_of_pair_eq hf]
            exact load_next_value_core_quiet g st r3 st3 hc
      | next =>
          simp only [runOp] at h
          cases hro : runOp g n .load_next_value st with
          | none => rw [hro] at h; simp at h
          | some p =>
              rcases p with ⟨r1, st1⟩
              rw [hro] at h
              have hq1 : Quiet st st1 := ih .load_next_value st r1 st1 hro
              match r1, h with
              | .error e, h =>
                  have h3 : some ((.error e : Except IonError (Option StreamItem)), st1)
                      = some (r, st') := h
                  have h2 := Option.some.inj h3
                  rw [snd_of_pair_eq h2]
                  exact hq1
              | .ok v, h =>
                  have h3 : (match st1.current_value with
                    | some value =>
                        some ((.ok (some (StreamItem.Value value.ion_type value.is_null))
                          : Except IonError (Option StreamItem)), st1)
                    | none => some (.ok none, st1)) = some (r, st') := h
                  cases hcv : st1.current_value with
                  | some value =>
                      rw [hcv] at h3
                      have h2 := Option.some.inj h3
                      rw [snd_of_pair_eq h2]
                      exact hq1
                  | none =>
                      rw [hcv] at h3
                      have h2 := Option.some.inj h3
                      rw [snd_of_pair_eq h2]
                      exact hq1
      | step_out =>
          simp only [runOp] at h
          split at h
          · -- top level: illegal operation, state unchanged
            have h2 := Option.some.inj h
            rw [snd_of_pair_eq h2]
            exact Quiet.rfl st
          · split at h
            · -- already exhausted: pop
              have h2 := Option.some.inj h
              rw [snd_of_pair_eq h2]
              exact ⟨Nat.le_refl _, Eq.refl _⟩
            · -- drain first
              cases hro : runOp g n .drain st with
              | none => rw [hro] at h; simp at h
              | some p =>
                  rcases p with ⟨r2, st2⟩
                  rw [hro] at h
                  have hq2 : Quiet st st2 := ih .drain st r2 st2 hro
                  match r2, h with
                  | .error e, h =>
                      have h3 : some ((.error e : Except IonError (Option StreamItem)), st2)
                          = some (r, st') := h
                      have h2 := Option.some.inj h3
                      rw [snd_of_pair_eq h2]
                      exact hq2
                  | .ok _, h =>
                      have h3 : some ((.ok none : Except IonError (Option StreamItem)),
                          { st2 with parents := st2.parents.tail, current_value := none })
                          = some (r, st') := h
                      have h2 := Option.some.inj h3
                      rw [snd_of_pair_eq h2]
                      exact ⟨hq2.1, hq2.2⟩
      | drain =>
          simp only [runOp] at h
          cases hro : runOp g n .next st with
          | none => rw [hro] at h; simp at h
          | some p =>
              rcases p with ⟨r1, st1⟩
              rw [hro] at h
              have hq1 : Quiet st st1 := ih .next st r1 st1 hro
              match r1, h with
              | .error e, h =>
                  have h3 : some ((.error e : Except IonError (Option StreamItem)), st1)
                      = some (r, st') := h
                  have h2 := Option.some.inj h3
                  rw [snd_of_pair_eq h2]
                  exact hq1
              | .ok none, h =>
                  have h3 : some ((.ok none : Except IonError (Option StreamItem)), st1)
                      = some (r, st') := h
                  have h2 := Option.some.inj h3
                  rw [snd_of_pair_eq h2]
                  exact hq1
              | .ok (some v), h =>
                  have h3 : runOp g n ReaderOp.drain st1 = some (r, st') := h
                  exact quiet_trans hq1 (ih .drain st1 r st' h3)

/-- Setting the current value to `none` when it already is `none` leaves the
state unchanged. -/
theorem set_current_none_eq :
    ∀ {st : TextReader}, st.current_value = none →
      { st with current_value := none } = st
  | ⟨_, _, none, _, _, _⟩, _ => rfl

/-- The dispatch in `next` preserves the current field name whenever the
underlying `load_next_value` call does. -/
theorem runOp_next_field (g : Grammar) (fuel : Nat) (st : TextReader)
    (r : Except IonError (Option StreamItem)) (st' : TextReader)
    (h : runOp g (fuel + 1) .next st = some (r, st'))
    (hload : ∀ r1 st1, runOp g fuel .load_next_value st = some (r1, st1) →
      st1.current_field_name = st.current_field_name) :
    st'.current_field_name = st.current_field_name := by
  simp only [runOp] at h
  cases hro : runOp g fuel .load_next_value st with
  | none => rw [hro] at h; simp at h
  | some p =>
      rcases p with ⟨r1, st1⟩
      rw [hro] at h
      have hf := hload r1 st1 hro
      match r1, h with
      | .error e, h =>
          have h3 : some ((.error e : Except IonError (Option StreamItem)), st1)
              = some (r, st') := h
          rw [snd_of_pair_eq (Option.some.inj h3)]
          exact hf
      | .ok v, h =>
          have h3 : (match st1.current_value with
            | some value =>
                some ((.ok (some (StreamItem.Value value.ion_type value.is_null))
                  : Except IonError (Option StreamItem)), st1)
            | none => some (.ok none, st1)) = some (r, st') := h
          cases hcv : st1.current_value with
          | some value =>
              rw [hcv] at h3
              rw [snd_of_pair_eq (Option.some.inj h3)]
              exact hf
          | none =>
              rw [hcv] at h3
              rw [snd_of_pair_eq (Option.some.inj h3)]
              exact hf

/-- A top-level `load_next_value` (no container to skip) never touches the
current field name: the source's top-level branch only reassigns
`current_value` and `is_eof`. -/
theorem runOp_load_top_field (g : Grammar) (fuel : Nat) (st : TextReader)
    (h1 : st.parents = [])
    (hskip : (st.current_value.map (fun v => v.value.ion_type.is_container)).getD false
      = false) :
    ∀ (r : Except IonError (Option StreamItem)) (st' : TextReader),
      runOp g (fuel + 1) .load_next_value st = some (r, st') →
      st'.current_field_name = st.current_field_name := by
  intro r st' h
  simp only [runOp] at h
  rw [hskip] at h
  simp only [Bool.false_eq_true, if_false] at h
  rw [Option.map_eq_some'] at h
  obtain ⟨⟨r3, st3⟩, hc, hf⟩ := h
  rw [snd_of_pair_eq hf]
  unfold load_next_value_core at hc
  rw [h1] at hc
  have hc2 : load_next_value_top g st = (r3, st3) := Option.some.inj hc
  unfold load_next_value_top at hc2
  split at hc2
  · rw [snd_of_pair_eq hc2]
  · rcases hp : next_top_level_valueF g st with ⟨r1, st1⟩
    have hq : ParseQuiet st st1 := by
      have := next_top_level_valueF_quiet g st
      rwa [hp] at this
    rw [hp] at hc2
    match r1, hc2 with
    | .ok none, hc2 =>
        rw [snd_of_pair_eq hc2]
        exact hq.field_eq
    | .ok (some v), hc2 =>
        rw [snd_of_pair_eq hc2]
        exact hq.field_eq
    | .error e, hc2 =>
        rw [snd_of_pair_eq hc2]
        exact hq.field_eq

/-- `step_out` on an already-exhausted innermost frame is an O(1) pop: no
drain loop runs, the frame is removed, the current value is cleared, and
nothing else (in particular not the field name or the buffer) changes. -/
theorem step_out_exhausted_eq (g : Grammar) (fuel : Nat) (st : TextReader)
    (p : ParentContainer) (ps : List ParentContainer)
    (hpar : st.parents = p :: ps) (hex : p.is_exhausted = true) :
    step_outF g (fuel + 1) st
      = some (.ok (), { st with parents := ps, current_value := none }) := by
  unfold step_outF
  simp only [runOp]
  rw [hpar]
  simp only [hex, if_true]
  rfl

/-- A successful immediate match in the buffering loop advances `bytes_read`
by exactly (tail length before parse) minus (leftover length after parse). -/
theorem parse_next_exact {α : Type} (parser : TextParser α) (st : TextReader)
    (rem : List Char) (v : α)
    (he : st.is_eof = false) (h : parser st.buffer.remaining = .ok rem v) :
    (parse_next parser st).2.bytes_read
      = st.bytes_read + (st.buffer.remaining.length - rem.length) := by
  unfold parse_next
  rw [he]
  simp only [Bool.false_eq_true, if_false]
  simp only [parse_next_go]
  rw [h]

/-! ## Claims -/

/-- C1: when the unconsumed tail at true end-of-input is a complete top-level
value that merely looked incomplete, a top-level `next()` returns that value:
the EOF disambiguator appends the sentinel, re-parses, and any match other
than the unannotated sentinel zero becomes the reader's current value (first
conjunct, for every grammar and state); concretely, input `755` yields the
integer 755 and input `foo::bar` yields the symbol `bar` annotated with
`foo`. -/
theorem c1_eof_value_recovery :
    (∀ (g : Grammar) (st : TextReader) (rem : List Char) (v : AnnotatedTextValue),
        g.top_level_value (st.buffer.remaining ++ SENTINEL_ION_TEXT) = .ok rem v →
        ¬(rem = ['\n'] ∧ v.anns = [] ∧ v.value = TextValue.Integer 0) →
        parse_value_at_eofF g st = (.ok (some v), st)) ∧
    c1_run755.map Prod.fst = some (.ok (some (.Value IonType.Integer false))) ∧
    (c1_run755.map fun p => (read_i64S p.2).1) = some (.ok (some 755)) ∧
    c1_runFooBar.map Prod.fst = some (.ok (some (.Value IonType.Symbol false))) ∧
    (c1_runFooBar.map fun p => p.2.current_value)
      = some (some ⟨[⟨['f', 'o', 'o']⟩], .Symbol ⟨['b', 'a', 'r']⟩⟩) :=
  ⟨fun g st rem v h h2 => parse_value_at_eofF_eq g st rem v h h2, rfl, rfl, rfl, rfl⟩

/-- A reader state whose buffered tail is exactly `755` at end of input. -/
def c1w_st : TextReader :=
  { readerOf [] with buffer := { remaining := in755, pending := [], lines_loaded := 1 } }

/-- Witness for C1 at a concrete state: the disambiguator on tail `755`
returns the integer 755 and restores the buffer. -/
theorem c1_eof_value_recovery_witness :
    parse_value_at_eofF ionGrammar c1w_st = (.ok (some ⟨[], .Integer 755⟩), c1w_st) :=
  c1_eof_value_recovery.1 ionGrammar c1w_st ['\n', '0', '\n'] ⟨[], .Integer 755⟩ rfl
    (by decide)

/-- C2: a `next()` on an unconsumed container head implicitly skips the whole
container. On `0 [1, 2, 3] (4 5) 6`: the first `next()` reads `0`; the second
lands on the list; the third, without any step-in, lands on the s-expression
(the list and all its elements are discarded); the fourth lands on the
integer `6`. -/
theorem c2_container_skip :
    c2_r1.map Prod.fst = some (.ok (some (.Value IonType.Integer false))) ∧
    (c2_r1.map fun p => (read_i64S p.2).1) = some (.ok (some 0)) ∧
    c2_r2.map Prod.fst = some (.ok (some (.Value IonType.List false))) ∧
    c2_r3.map Prod.fst = some (.ok (some (.Value IonType.SExpression false))) ∧
    c2_r4.map Prod.fst = some (.ok (some (.Value IonType.Integer false))) ∧
    (c2_r4.map fun p => (read_i64S p.2).1) = some (.ok (some 6)) :=
  ⟨rfl, rfl, rfl, rfl, rfl, rfl⟩

/-- C3: end-of-input reached where a value is mandatory is a decoding error,
never a silent "no more values": whenever the buffering loop reports end of
input, `parse_expected` (used for every in-container position and for the
mandatory struct field value) turns it into a decoding error (first
conjunct); concretely, `next()` inside the truncated list `[1, 2` errors,
`next()` inside `{foo:` (field name read, value missing) errors, and only at
depth 0 is EOF reported as "no more values". -/
theorem c3_eof_in_container_errors :
    (∀ (α : Type) (parser : TextParser α) (st st' : TextReader),
        parse_next parser st = (.ok none, st') →
        parse_expected parser st = (.error .decodingError, st')) ∧
    c3_list_run.map Prod.fst = some (.error .decodingError) ∧
    c3_struct_run.map Prod.fst = some (.error .decodingError) ∧
    c3_empty_run.map Prod.fst = some (.ok none) := by
  refine ⟨?_, rfl, rfl, rfl⟩
  intro α parser st st' h
  unfold parse_expected
  rw [h]

/-- Witness for C3 at a concrete state: an empty source exhausts immediately
and the expectation of a value becomes a decoding error. -/
theorem c3_eof_in_container_errors_witness :
    parse_expected ionGrammar.top_level_value (readerOf [])
      = (.error .decodingError, { readerOf [] with is_eof := true }) :=
  c3_eof_in_container_errors.1 AnnotatedTextValue ionGrammar.top_level_value
    (readerOf []) { readerOf [] with is_eof := true } rfl

/-- C4: once "no more values" has been reached, `next()` is an idempotent
no-op. At the top level with the EOF flag set (and no pending value), and
inside a container whose innermost frame is exhausted, `next()` returns
"no more values" with the state completely unchanged — no parser call, no
buffer access — for any fuel, so repeated calls keep returning the same. -/
theorem c4_no_more_values_idempotent :
    (∀ (g : Grammar) (fuel : Nat) (st : TextReader),
        st.parents = [] → st.is_eof = true → st.current_value = none →
        nextF g (fuel + 2) st = some (.ok none, st)) ∧
    (∀ (g : Grammar) (fuel : Nat) (st : TextReader)
        (p : ParentContainer) (ps : List ParentContainer),
        st.parents = p :: ps → p.is_exhausted = true → st.current_value = none →
        nextF g (fuel + 2) st = some (.ok none, st)) := by
  constructor
  · intro g fuel st h1 h2 h3
    unfold nextF
    simp only [runOp, h3, Option.map_none', Option.getD_none, Bool.false_eq_true, if_false,
      load_next_value_core, h1, load_next_value_top, h2, if_true, Option.map_some',
      Except.map]
    rw [← h2, ← h1, set_current_none_eq h3]
  · intro g fuel st p ps h1 h2 h3
    unfold nextF
    simp only [runOp, h3, Option.map_none', Option.getD_none, Bool.false_eq_true, if_false,
      load_next_value_core, h1, h2, if_true, Option.map_some', Except.map]
    rw [← h1, set_current_none_eq h3]

/-- A top-level reader that has already observed EOF. -/
def c4w_st : TextReader := { readerOf [] with is_eof := true }

/-- A reader inside an exhausted list frame. -/
def c4w_st2 : TextReader :=
  { readerOf [] with parents := [{ ion_type := IonType.List, is_exhausted := true }] }

/-- Witness for C4 at concrete states: both the EOF top level and an
exhausted frame answer "no more values" and leave the state unchanged. -/
theorem c4_no_more_values_idempotent_witness :
    nextF ionGrammar 2 c4w_st = some (.ok none, c4w_st) ∧
    nextF ionGrammar 2 c4w_st2 = some (.ok none, c4w_st2) :=
  ⟨c4_no_more_values_idempotent.1 ionGrammar 0 c4w_st rfl rfl rfl,
    c4_no_more_values_idempotent.2 ionGrammar 0 c4w_st2
      { ion_type := IonType.List, is_exhausted := true } [] rfl rfl rfl⟩

/-- C5 counterexample: the claim "after fully consuming an input of length L,
`bytes_read()` equals exactly L, the counter advancing for the final value of
the stream too" fails on the input `755`: the first `next()` yields the
integer 755 through the EOF disambiguator, which never advances the counter,
the second `next()` confirms the stream is fully consumed, and `bytes_read`
is then 0, not the input length 3. -/
theorem c5_bytes_read_counterexample :
    c5_r1.map Prod.fst = some (.ok (some (.Value IonType.Integer false))) ∧
    (c5_r1.map fun p => (read_i64S p.2).1) = some (.ok (some 755)) ∧
    (c5_r2.map fun p => p.1) = some (.ok none) ∧
    (c5_r2.map fun p => p.2.bytes_read) = some 0 ∧
    in755.length = 3 ∧ (0 : Nat) ≠ 3 :=
  ⟨rfl, rfl, rfl, rfl, rfl, by decide⟩

/-- C5 as amended: `bytes_read` is monotonically non-decreasing across
`next`, `step_out` and `step_in`; every successful match in the buffering
loop advances it by exactly (tail before) − (leftover after); `next`
conserves `bytes_read` + unconsumed tail + unloaded input (`loadedChars`);
but a final value recovered by the EOF disambiguator advances the counter by
zero, so after full consumption `bytes_read` equals the bytes consumed by
ordinary matches, which can be less than the input length (0 for `755`). -/
theorem c5_bytes_read_amended :
    (∀ (g : Grammar) (fuel : Nat) (st : TextReader)
        (r : Except IonError (Option StreamItem)) (st' : TextReader),
        nextF g fuel st = some (r, st') → st.bytes_read ≤ st'.bytes_read) ∧
    (∀ (g : Grammar) (fuel : Nat) (st : TextReader)
        (r : Except IonError Unit) (st' : TextReader),
        step_outF g fuel st = some (r, st') → st.bytes_read ≤ st'.bytes_read) ∧
    (∀ st : TextReader, (step_inS st).2.bytes_read = st.bytes_read) ∧
    (∀ (g : Grammar) (fuel : Nat) (st : TextReader)
        (r : Except IonError (Option StreamItem)) (st' : TextReader),
        nextF g fuel st = some (r, st') → loadedChars st' = loadedChars st) ∧
    (∀ (α : Type) (parser : TextParser α) (st : TextReader) (rem : List Char) (v : α),
        st.is_eof = false → parser st.buffer.remaining = .ok rem v →
        (parse_next parser st).2.bytes_read
          = st.bytes_read + (st.buffer.remaining.length - rem.length)) ∧
    (∀ (g : Grammar) (st : TextReader),
        (parse_value_at_eofF g st).2.bytes_read = st.bytes_read) := by
  refine ⟨?_, ?_, ?_, ?_, ?_, ?_⟩
  · intro g fuel st r st' h
    exact (runOp_quiet g fuel .next st r st' h).1
  · intro g fuel st r st' h
    unfold step_outF at h
    rw [Option.map_eq_some'] at h
    obtain ⟨⟨r0, st0⟩, hc, hf⟩ := h
    rw [snd_of_pair_eq hf]
    exact (runOp_quiet g fuel .step_out st r0 st0 hc).1
  · intro st
    unfold step_inS
    split
    · split <;> rfl
    · rfl
  · intro g fuel st r st' h
    exact (runOp_quiet g fuel .next st r st' h).2
  · intro α parser st rem v he h
    exact parse_next_exact parser st rem v he h
  · intro g st
    rw [parse_value_at_eofF_snd]

/-- A top-level reader that has already observed EOF (C5 witness state). -/
def c5w_st : TextReader := { readerOf [] with is_eof := true, bytes_read := 7 }

/-- Witness for C5 (amended) at a concrete state. -/
theorem c5_bytes_read_amended_witness :
    c5w_st.bytes_read ≤ c5w_st.bytes_read ∧
    (parse_value_at_eofF ionGrammar c5w_st).2.bytes_read = c5w_st.bytes_read :=
  ⟨c5_bytes_read_amended.1 ionGrammar 2 c5w_st (.ok none) c5w_st rfl,
    c5_bytes_read_amended.2.2.2.2.2 ionGrammar c5w_st⟩

/-- C6 counterexample: the claim "field_name() is absent after any next() that
loads a value whose immediate parent is not a struct, and after any
successful step_out() from a struct" fails on `{a: b} 5`: after reading the
struct's single field, observing its end, stepping out, and loading the
top-level integer 5 (whose parent is the top level, not a struct), the
current field name is still the stale `a`, not absent. -/
theorem c6_field_name_counterexample :
    c6_r4.map Prod.fst = some (.ok (some (.Value IonType.Integer false))) ∧
    (c6_r4.map fun p => p.2.parents) = some [] ∧
    (c6_r4.map fun p => (read_i64S p.2).1) = some (.ok (some 5)) ∧
    (c6_r4.map fun p => p.2.current_field_name) = some (some ⟨['a']⟩) ∧
    some (OwnedSymbolToken.mk ['a']) ≠ (none : Option OwnedSymbolToken) :=
  ⟨rfl, rfl, rfl, rfl, by decide⟩

/-- C6 as amended: the current field name is set when the immediate parent is
a struct and a field name was just read (concretely, `a` inside `{a: b}`),
but it is never cleared: a top-level `next()` (no container skip pending)
leaves it unchanged, and a `step_out()` from an exhausted frame pops the
frame and clears the current value while leaving the field name (and
everything else) untouched, so a stale field name survives leaving the
struct. -/
theorem c6_field_name_amended :
    (c6_r2.map fun p => (p.1, p.2.current_field_name))
      = some (.ok (some (.Value IonType.Symbol false)), some ⟨['a']⟩) ∧
    (∀ (g : Grammar) (fuel : Nat) (st : TextReader)
        (r : Except IonError (Option StreamItem)) (st' : TextReader),
        st.parents = [] →
        (st.current_value.map (fun v => v.value.ion_type.is_container)).getD false = false →
        nextF g (fuel + 2) st = some (r, st') →
        st'.current_field_name = st.current_field_name) ∧
    (∀ (g : Grammar) (fuel : Nat) (st : TextReader)
        (p : ParentContainer) (ps : List ParentContainer),
        st.parents = p :: ps → p.is_exhausted = true →
        step_outF g (fuel + 1) st
          = some (.ok (), { st with parents := ps, current_value := none })) := by
  refine ⟨rfl, ?_, ?_⟩
  · intro g fuel st r st' h1 hskip h
    exact runOp_next_field g (fuel + 1) st r st' h
      (runOp_load_top_field g fuel st h1 hskip)
  · intro g fuel st p ps hpar hex
    exact step_out_exhausted_eq g fuel st p ps hpar hex

/-- Witness for C6 (amended) at concrete states. -/
theorem c6_field_name_amended_witness :
    ({ readerOf [] with is_eof := true } : TextReader).current_field_name
        = (readerOf []).current_field_name ∧
    step_outF ionGrammar 1 c4w_st2
      = some (.ok (), { c4w_st2 with parents := [], current_value := none }) :=
  ⟨c6_field_name_amended.2.1 ionGrammar 0 (readerOf []) (.ok none)
      { readerOf [] with is_eof := true } rfl rfl rfl,
    c6_field_name_amended.2.2 ionGrammar 0 c4w_st2
      { ion_type := IonType.List, is_exhausted := true } [] rfl rfl⟩

/-- C7: the EOF disambiguator is idempotent with respect to the sentinel:
whenever it reports "no more values" or an error, the buffer's unconsumed
tail is restored to its pre-call content (the appended sentinel is stripped),
and invoking the routine again still leaves the buffer at its original
content, so sentinel bytes never accumulate. -/
theorem c7_sentinel_idempotent :
    ∀ (g : Grammar) (st : TextReader),
      ((parse_value_at_eofF g st).1 = .ok none ∨
        (∃ e, (parse_value_at_eofF g st).1 = .error e)) →
      ((parse_value_at_eofF g st).2.buffer = st.buffer ∧
        (parse_value_at_eofF g (parse_value_at_eofF g st).2).2.buffer = st.buffer) := by
  intro g st _
  constructor
  · rw [parse_value_at_eofF_snd]
  · rw [parse_value_at_eofF_snd, parse_value_at_eofF_snd]

/-- A fresh reader on an empty source (C7 witness state). -/
def c7w_st : TextReader := readerOf []

/-- Witness for C7 at a concrete state: on an empty tail the disambiguator
reports "no more values" and the buffer is restored. -/
theorem c7_sentinel_idempotent_witness :
    (parse_value_at_eofF ionGrammar c7w_st).2.buffer = c7w_st.buffer ∧
    (parse_value_at_eofF ionGrammar (parse_value_at_eofF ionGrammar c7w_st).2).2.buffer
      = c7w_st.buffer :=
  c7_sentinel_idempotent ionGrammar c7w_st (Or.inl rfl)

/-- C8: `step_in()` succeeds exactly on an unconsumed container head, pushing
a frame of that container's kind and clearing the current value; on an absent
current value or a scalar it fails with an illegal-operation error (a kind
distinct from a decoding error) and the state is unchanged; `step_out()` at
depth 0 fails with an illegal-operation error and the state is unchanged, so
every failing call is safely retryable. -/
theorem c8_step_errors :
    (∀ (st : TextReader) (v : AnnotatedTextValue),
        st.current_value = some v → v.value.ion_type.is_container = true →
        step_inS st = (.ok (),
          { st with parents := ParentContainer.new v.value.ion_type :: st.parents,
                    current_value := none })) ∧
    (∀ (st : TextReader) (v : AnnotatedTextValue),
        st.current_value = some v → v.value.ion_type.is_container = false →
        step_inS st = (.error .illegalOperation, st)) ∧
    (∀ st : TextReader, st.current_value = none →
        step_inS st = (.error .illegalOperation, st)) ∧
    (∀ (g : Grammar) (fuel : Nat) (st : TextReader), st.parents = [] →
        step_outF g (fuel + 1) st = some (.error .illegalOperation, st)) ∧
    IonError.illegalOperation ≠ IonError.decodingError := by
  refine ⟨?_, ?_, ?_, ?_, by decide⟩
  · intro st v hv hc
    unfold step_inS
    rw [hv]
    simp only [hc, if_true]
  · intro st v hv hc
    unfold step_inS
    rw [hv]
    simp only [hc, Bool.false_eq_true, if_false]
  · intro st hv
    unfold step_inS
    rw [hv]
  · intro g fuel st hpar
    unfold step_outF
    simp only [runOp]
    rw [hpar]
    rfl

/-- A reader positioned on a list head (C8 witness state). -/
def c8w_st : TextReader := { readerOf [] with current_value := some ⟨[], .ListStart⟩ }

/-- Witness for C8 at concrete states: stepping into a list head succeeds and
pushes a list frame; stepping out at the top level is an illegal operation. -/
theorem c8_step_errors_witness :
    step_inS c8w_st = (.ok (),
      { c8w_st with parents := [ParentContainer.new IonType.List],
                    current_value := none }) ∧
    step_outF ionGrammar 1 (readerOf []) = some (.error .illegalOperation, readerOf []) :=
  ⟨c8_step_errors.1 c8w_st ⟨[], .ListStart⟩ rfl rfl,
    c8_step_errors.2.2.2.1 ionGrammar 0 (readerOf []) rfl⟩

/-- C9: each typed scalar reader returns the current value's payload when the
current value's type matches; it never returns an error (for every error kind
`e` the result is not `.error e`); and when the type does not match — in
particular before any `next()` (no current value) or on a container head —
the result is the successful empty `.ok none`, for all seven readers
`read_bool`, `read_i64`, `read_string`, `read_decimal`, `read_timestamp`,
`read_blob_bytes` and `read_clob_bytes`. -/
theorem c9_typed_readers_absent : ∀ st : TextReader,
    ((∀ b, st.current_value.map (fun c => c.value) = some (.Boolean b) →
        (read_boolS st).1 = .ok (some b)) ∧
      (∀ e, (read_boolS st).1 ≠ .error e) ∧
      ((∀ b, st.current_value.map (fun c => c.value) ≠ some (.Boolean b)) →
        (read_boolS st).1 = .ok none)) ∧
    ((∀ i, st.current_value.map (fun c => c.value) = some (.Integer i) →
        (read_i64S st).1 = .ok (some i)) ∧
      (∀ e, (read_i64S st).1 ≠ .error e) ∧
      ((∀ i, st.current_value.map (fun c => c.value) ≠ some (.Integer i)) →
        (read_i64S st).1 = .ok none)) ∧
    ((∀ s, st.current_value.map (fun c => c.value) = some (.String s) →
        (read_stringS st).1 = .ok (some s)) ∧
      (∀ e, (read_stringS st).1 ≠ .error e) ∧
      ((∀ s, st.current_value.map (fun c => c.value) ≠ some (.String s)) →
        (read_stringS st).1 = .ok none)) ∧
    ((∀ d, st.current_value.map (fun c => c.value) = some (.Decimal d) →
        (read_decimalS st).1 = .ok (some d)) ∧
      (∀ e, (read_decimalS st).1 ≠ .error e) ∧
      ((∀ d, st.current_value.map (fun c => c.value) ≠ some (.Decimal d)) →
        (read_decimalS st).1 = .ok none)) ∧
    ((∀ t, st.current_value.map (fun c => c.value) = some (.Timestamp t) →
        (read_timestampS st).1 = .ok (some t)) ∧
      (∀ e, (read_timestampS st).1 ≠ .error e) ∧
      ((∀ t, st.current_value.map (fun c => c.value) ≠ some (.Timestamp t)) →
        (read_timestampS st).1 = .ok none)) ∧
    ((∀ bs, st.current_value.map (fun c => c.value) = some (.Blob bs) →
        (read_blob_bytesS st).1 = .ok (some bs)) ∧
      (∀ e, (read_blob_bytesS st).1 ≠ .error e) ∧
      ((∀ bs, st.current_value.map (fun c => c.value) ≠ some (.Blob bs)) →
        (read_blob_bytesS st).1 = .ok none)) ∧
    ((∀ bs, st.current_value.map (fun c => c.value) = some (.Clob bs) →
        (read_clob_bytesS st).1 = .ok (some bs)) ∧
      (∀ e, (read_clob_bytesS st).1 ≠ .error e) ∧
      ((∀ bs, st.current_value.map (fun c => c.value) ≠ some (.Clob bs)) →
        (read_clob_bytesS st).1 = .ok none)) ∧
    (st.current_value = none →
      (read_boolS st).1 = .ok none ∧ (read_i64S st).1 = .ok none ∧
      (read_stringS st).1 = .ok none ∧ (read_decimalS st).1 = .ok none ∧
      (read_timestampS st).1 = .ok none ∧ (read_blob_bytesS st).1 = .ok none ∧
      (read_clob_bytesS st).1 = .ok none) ∧
    (∀ v, st.current_value = some v → v.value.ion_type.is_container = true →
      (read_boolS st).1 = .ok none ∧ (read_i64S st).1 = .ok none ∧
      (read_stringS st).1 = .ok none ∧ (read_decimalS st).1 = .ok none ∧
      (read_timestampS st).1 = .ok none ∧ (read_blob_bytesS st).1 = .ok none ∧
      (read_clob_bytesS st).1 = .ok none) := by
  intro st
  refine ⟨⟨?_, ?_, ?_⟩, ⟨?_, ?_, ?_⟩, ⟨?_, ?_, ?_⟩, ⟨?_, ?_, ?_⟩, ⟨?_, ?_, ?_⟩,
    ⟨?_, ?_, ?_⟩, ⟨?_, ?_, ?_⟩, ?_, ?_⟩
  case _ => intro b hb; simp [read_boolS, hb]
  case _ =>
      intro e
      rcases hm : st.current_value.map (fun c => c.value) with _ | tv
      · simp [read_boolS, hm]
      · cases tv <;> simp [read_boolS, hm]
  case _ =>
      intro hne
      rcases hm : st.current_value.map (fun c => c.value) with _ | tv
      · simp [read_boolS, hm]
      · cases tv <;> first | exact absurd hm (hne _) | simp [read_boolS, hm]
  case _ => intro i hi; simp [read_i64S, hi]
  case _ =>
      intro e
      rcases hm : st.current_value.map (fun c => c.value) with _ | tv
      · simp [read_i64S, hm]
      · cases tv <;> simp [read_i64S, hm]
  case _ =>
      intro hne
      rcases hm : st.current_value.map (fun c => c.value) with _ | tv
      · simp [read_i64S, hm]
      · cases tv <;> first | exact absurd hm (hne _) | simp [read_i64S, hm]
  case _ => intro s hs; simp [read_stringS, hs]
  case _ =>
      intro e
      rcases hm : st.current_value.map (fun c => c.value) with _ | tv
      · simp [read_stringS, hm]
      · cases tv <;> simp [read_stringS, hm]
  case _ =>
      intro hne
      rcases hm : st.current_value.map (fun c => c.value) with _ | tv
      · simp [read_stringS, hm]
      · cases tv <;> first | exact absurd hm (hne _) | simp [read_stringS, hm]
  case _ => intro d hd; simp [read_decimalS, hd]
  case _ =>
      intro e
      rcases hm : st.current_value.map (fun c => c.value) with _ | tv
      · simp [read_decimalS, hm]
      · cases tv <;> simp [read_decimalS, hm]
  case _ =>
      intro hne
      rcases hm : st.current_value.map (fun c => c.value) with _ | tv
      · simp [read_decimalS, hm]
      · cases tv <;> first | exact absurd hm (hne _) | simp [read_decimalS, hm]
  case _ => intro t ht; simp [read_timestampS, ht]
  case _ =>
      intro e
      rcases hm : st.current_value.map (fun c => c.value) with _ | tv
      · simp [read_timestampS, hm]
      · cases tv <;> simp [read_timestampS, hm]
  case _ =>
      intro hne
      rcases hm : st.current_value.map (fun c => c.value) with _ | tv
      · simp [read_timestampS, hm]
      · cases tv <;> first | exact absurd hm (hne _) | simp [read_timestampS, hm]
  case _ => intro bs hbs; simp [read_blob_bytesS, hbs]
  case _ =>
      intro e
      rcases hm : st.current_value.map (fun c => c.value) with _ | tv
      · simp [read_blob_bytesS, hm]
      · cases tv <;> simp [read_blob_bytesS, hm]
  case _ =>
      intro hne
      rcases hm : st.current_value.map (fun c => c.value) with _ | tv
      · simp [read_blob_bytesS, hm]
      · cases tv <;> first | exact absurd hm (hne _) | simp [read_blob_bytesS, hm]
  case _ => intro bs hbs; simp [read_clob_bytesS, hbs]
  case _ =>
      intro e
      rcases hm : st.current_value.map (fun c => c.value) with _ | tv
      · simp [read_clob_bytesS, hm]
      · cases tv <;> simp [read_clob_bytesS, hm]
  case _ =>
      intro hne
      rcases hm : st.current_value.map (fun c => c.value) with _ | tv
      · simp [read_clob_bytesS, hm]
      · cases tv <;> first | exact absurd hm (hne _) | simp [read_clob_bytesS, hm]
  case _ =>
      intro h
      exact ⟨by simp [read_boolS, h], by simp [read_i64S, h], by simp [read_stringS, h],
        by simp [read_decimalS, h], by simp [read_timestampS, h],
        by simp [read_blob_bytesS, h], by simp [read_clob_bytesS, h]⟩
  case _ =>
      intro v hv hc
      rcases v with ⟨a, tv⟩
      cases tv with
      | Null t =>
          exact ⟨by simp [read_boolS, hv], by simp [read_i64S, hv],
            by simp [read_stringS, hv], by simp [read_decimalS, hv],
            by simp [read_timestampS, hv], by simp [read_blob_bytesS, hv],
            by simp [read_clob_bytesS, hv]⟩
      | Boolean b => exact Bool.noConfusion hc
      | Integer i => exact Bool.noConfusion hc
      | Float x => exact Bool.noConfusion hc
      | Decimal d => exact Bool.noConfusion hc
      | Timestamp t => exact Bool.noConfusion hc
      | Symbol s => exact Bool.noConfusion hc
      | String s => exact Bool.noConfusion hc
      | Blob bs => exact Bool.noConfusion hc
      | Clob bs => exact Bool.noConfusion hc
      | ListStart =>
          exact ⟨by simp [read_boolS, hv], by simp [read_i64S, hv],
            by simp [read_stringS, hv], by simp [read_decimalS, hv],
            by simp [read_timestampS, hv], by simp [read_blob_bytesS, hv],
            by simp [read_clob_bytesS, hv]⟩
      | SExpressionStart =>
          exact ⟨by simp [read_boolS, hv], by simp [read_i64S, hv],
            by simp [read_stringS, hv], by simp [read_decimalS, hv],
            by simp [read_timestampS, hv], by simp [read_blob_bytesS, hv],
            by simp [read_clob_bytesS, hv]⟩
      | StructStart =>
          exact ⟨by simp [read_boolS, hv], by simp [read_i64S, hv],
            by simp [read_stringS, hv], by simp [read_decimalS, hv],
            by simp [read_timestampS, hv], by simp [read_blob_bytesS, hv],
            by simp [read_clob_bytesS, hv]⟩

/-- A reader positioned on the boolean `true` (C9 witness state). -/
def c9w_st : TextReader := { readerOf [] with current_value := some ⟨[], .Boolean true⟩ }

/-- Witness for C9 at a concrete state: on a boolean current value,
`read_bool` yields the payload and `read_i64` yields "absent". -/
theorem c9_typed_readers_absent_witness :
    (read_boolS c9w_st).1 = .ok (some true) ∧ (read_i64S c9w_st).1 = .ok none :=
  ⟨(c9_typed_readers_absent c9w_st).1.1 true rfl,
    (c9_typed_readers_absent c9w_st).2.1.2.2
      (fun i h => by simp [c9w_st, readerOf] at h)⟩

/-- C10: every typed scalar reader leaves the reader state — buffer, parent
stack, current value, field name, EOF flag, byte counter — completely
unchanged: the second component of each reader's result is the input state,
for every state and (for `string_ref_map`) every mapping function, so any
sequence of typed reads between two `next()` calls is observationally
equivalent to any other. -/
theorem c10_typed_readers_pure :
    ∀ (st : TextReader) (U : Type) (f : List Char → U),
      (read_nullS st).2 = st ∧ (read_boolS st).2 = st ∧ (read_i64S st).2 = st ∧
      (read_f32S st).2 = st ∧ (read_f64S st).2 = st ∧ (read_decimalS st).2 = st ∧
      (read_stringS st).2 = st ∧ (read_blob_bytesS st).2 = st ∧
      (read_clob_bytesS st).2 = st ∧ (read_timestampS st).2 = st ∧
      (string_ref_mapS f st).2 = st := by
  intro st U f
  rcases hm : st.current_value.map (fun c => c.value) with _ | tv
  · exact ⟨by simp [read_nullS, hm], by simp [read_boolS, hm], by simp [read_i64S, hm],
      by simp [read_f32S, hm], by simp [read_f64S, hm], by simp [read_decimalS, hm],
      by simp [read_stringS, hm], by simp [read_blob_bytesS, hm],
      by simp [read_clob_bytesS, hm], by simp [read_timestampS, hm],
      by simp [string_ref_mapS, hm]⟩
  · cases tv <;>
      exact ⟨by simp [read_nullS, hm], by simp [read_boolS, hm], by simp [read_i64S, hm],
        by simp [read_f32S, hm], by simp [read_f64S, hm], by simp [read_decimalS, hm],
        by simp [read_stringS, hm], by simp [read_blob_bytesS, hm],
        by simp [read_clob_bytesS, hm], by simp [read_timestampS, hm],
        by simp [string_ref_mapS, hm]⟩

/-- A fresh reader used as the C10 witness state. -/
def c10w_st : TextReader := { readerOf [] with current_value := some ⟨[], .String ['h', 'i']⟩ }

/-- Witness for C10 at a concrete state and mapping function. -/
theorem c10_typed_readers_pure_witness :
    (read_nullS c10w_st).2 = c10w_st ∧ (read_boolS c10w_st).2 = c10w_st ∧
    (read_i64S c10w_st).2 = c10w_st ∧ (read_f32S c10w_st).2 = c10w_st ∧
    (read_f64S c10w_st).2 = c10w_st ∧ (read_decimalS c10w_st).2 = c10w_st ∧
    (read_stringS c10w_st).2 = c10w_st ∧ (read_blob_bytesS c10w_st).2 = c10w_st ∧
    (read_clob_bytesS c10w_st).2 = c10w_st ∧ (read_timestampS c10w_st).2 = c10w_st ∧
    (string_ref_mapS List.length c10w_st).2 = c10w_st :=
  c10_typed_readers_pure c10w_st Nat List.length

end IonText
